import Mathlib

set_option autoImplicit false

/- Shallow embedding of the eVOLVER control plane: evolver_server.py
   (serial broadcast engine), robotics_server.py (fluidic routine engine)
   and the evolver.py broadcast loop.  Python strings are modelled as lists
   of characters or as Lean strings, stateful handlers as state
   transformers, and fallible operations return Except values.  Every
   definition is translated from the source; the single specification
   modelled comparator is marked as such. -/

/-! ## Stored parameter vectors and the NaN partial update
    (evolver_server.py, on_command, lines 48 to 54) -/

/-- A scalar entry of a stored parameter vector.  The Python code uses the
string NaN as a keep the old slot sentinel; it is modelled as a
distinguished constructor. -/
inductive SVal where
  | nan : SVal
  | num : Int → SVal
deriving DecidableEq, Repr

/-- The update loop of on_command: for each index i of the update list, when
the entry differs from the NaN sentinel the stored vector is overwritten at
index i.  Python raises IndexError when the update is longer than the stored
vector; List.set is a no-op there and the theorems restrict to updates that
fit. -/
def updateStoredFrom (stored : List SVal) (i : Nat) : List SVal → List SVal
  | [] => stored
  | v :: rest =>
      updateStoredFrom (if v = SVal.nan then stored else stored.set i v)
        (i + 1) rest

/-- Partial vector update performed by a command event on a parameter whose
stored value is a vector. -/
def updateStored (stored update : List SVal) : List SVal :=
  updateStoredFrom stored 0 update

/-! ## Per pump step decomposition inside influx_snake_helper
    (robotics_server.py, lines 846 to 906).  For one pump of the active vial
    window with max_steps M and requested steps S the code computes
    max_pump_num as the integer part of S / M and a fractional remainder,
    then loops, filling one instruction per fluidic event. -/

/-- One iteration of the instruction loop for a single pump, mirroring the
two consecutive if statements of lines 859 to 865: when max_pump_num is
positive the instruction is set to max_steps and the counter decremented;
when the counter is zero after that, the instruction is overwritten with the
fractional count and the fractional slot is marked with the string done.
The second test is an if, not an elif, and reads the decremented counter.
State is the pair of max_pump_num and the fractional slot, where none stands
for the marker done; the returned instruction is none exactly when the code
writes the string done in place of a step count. -/
def pumpIter (M : Nat) (st : Nat × Option Nat) : Option Nat × (Nat × Option Nat) :=
  if st.1 > 0 then
    let m := st.1 - 1
    if m = 0 then (st.2, (m, none)) else (some M, (m, st.2))
  else
    (st.2, (st.1, none))

/-- Iterates pumpIter, emitting the instruction carried by each issued
fluidic event, until the break condition of line 905 holds at the end of an
iteration: the fractional slot is marked done.  Fuel bounds the loop;
pumpEvents supplies enough of it.  This is the single pump projection of the
window loop: with several pumps the loop runs for the largest per pump
iteration count and later iterations of a finished pump emit the done
marker. -/
def pumpEventsAux (M : Nat) : Nat → Nat × Option Nat → List (Option Nat)
  | 0, _ => []
  | fuel + 1, st =>
    let r := pumpIter M st
    r.1 :: (if r.2.2 = none then [] else pumpEventsAux M fuel r.2)

/-- The instruction sequence the snake routine issues for one pump with
max_steps M and requested steps S.  The Python float expressions
int(S / M) and int((S / M - int(S / M)) * M) are modelled as exact natural
division and remainder. -/
def pumpEvents (M S : Nat) : List (Option Nat) :=
  pumpEventsAux M (S / M + 1) (S / M, some (S % M))

/-- Modelled from the spec: the decomposition the specification describes,
namely floor(S / M) full strokes of M steps followed by one fractional event
of S mod M steps.  Stated only for comparison with pumpEvents. -/
def specStepDecomposition (M S : Nat) : List Nat :=
  List.replicate (S / M) M ++ [S % M]

/-- Total steps dispensed over a list of issued instructions; a done marker
dispenses nothing. -/
def totalSteps (events : List (Option Nat)) : Nat :=
  events.foldl (fun acc i => acc + i.getD 0) 0

/-! ## Vial window generation inside influx_snake_helper
    (robotics_server.py, lines 772 to 803) -/

/-- One pass of the vial window update for loop index x.  When the flag the
source names uniform_pump_types is false the code takes the slice of the row
from nvw times x of length nvw plus one together with the full pump map;
when the flag is true it slides the window like a queue: append while x is
below pump_num, afterwards pop the head, append the next vial while x is
inside the row, and pop the leading pump once x passes the row end. -/
def windowIter (uniformFlag : Bool) (nvw pumpNum : Nat) (row : List Nat)
    (pumpMap : List String) (x : Nat) (st : List Nat × List String) :
    List Nat × List String :=
  if !uniformFlag then
    ((row.drop (nvw * x)).take (nvw + 1), pumpMap)
  else
    let vw := st.1
    let ap := st.2
    let vw := if x < pumpNum then vw ++ [row.getD x 0] else vw
    let ap := if x < pumpNum then ap ++ [pumpMap.getD x ""] else ap
    if x ≥ pumpNum then
      let vw := vw.drop 1
      let vw := if x < row.length then vw ++ [row.getD x 0] else vw
      let ap := if x ≥ row.length then ap.drop 1 else ap
      (vw, ap)
    else (vw, ap)

/-- Collects the pairs of vial window and active pump list after each
iteration of the loop for x in range(num_vial_windows); count is the number
of remaining iterations. -/
def windowSeqAux (uniformFlag : Bool) (nvw pumpNum : Nat) (row : List Nat)
    (pumpMap : List String) : Nat → Nat → List Nat × List String →
    List (List Nat × List String)
  | 0, _, _ => []
  | count + 1, x, st =>
    let st2 := windowIter uniformFlag nvw pumpNum row pumpMap x st
    st2 :: windowSeqAux uniformFlag nvw pumpNum row pumpMap count (x + 1) st2

/-- The sequence of vial windows influx_snake_helper produces for one row.
Mirrors lines 772 to 789 of the source: the flag named uniform_pump_types is
assigned true exactly when the set of pump fluid types has more than one
element, and num_vial_windows is reassigned unconditionally to
6 + (pump_num - 1) at line 783, overriding both earlier branch
assignments. -/
def influxWindows (pumpTypes pumpMap : List String) (row : List Nat)
    (pumpNum : Nat) : List (List Nat × List String) :=
  let uniformFlag := pumpTypes.eraseDups.length > 1
  let nvw := 6 + (pumpNum - 1)
  windowSeqAux uniformFlag nvw pumpNum row pumpMap nvw 0 ([], [])

/-! ## Serial framer (evolver_server.py, serial_communication,
    lines 244 to 327) -/

/-- A serial field, one comma separated item of a frame. -/
abbrev SField := List Char

inductive CommType where
  | immediate : CommType
  | recurring : CommType
deriving DecidableEq, Repr

/-- The failures serial_communication raises.  The outgoing shape failure is
raised as a plain string, which Python 3 turns into a TypeError; the rest
are EvolverSerialError values.  All of them appear in the catch list of
run_commands. -/
inductive SerialErr where
  | shapeOutgoing : SerialErr
  | addressMismatch : SerialErr
  | termination : SerialErr
  | shapeIncoming : SerialErr
  | echoMismatch : SerialErr
  | badSentinel : SerialErr
deriving DecidableEq, Repr

/-- The configuration fields of the serial link: one sentinel per command or
response kind and the two frame terminators. -/
structure SerialConf where
  immediateChar : SField
  recurringChar : SField
  ackChar : SField
  echoChar : SField
  dataChar : SField
  endOut : List Char
  endIn : List Char
deriving DecidableEq, Repr

/-- The literal NaN sentinel of the wire protocol. -/
def nanField : SField := ['N', 'a', 'N']

/-- The outgoing field list: the sentinel of the command type followed by the
stringified values, with every literal NaN entry replaced by the stored
configuration value at the previous index (lines 248 to 264 of the source).
Python indexes the stored list with i - 1 and would pick the last element at
i = 0; reaching that corner needs the one character type sentinel to equal
NaN and it is modelled with clamped subtraction. -/
def buildOutput (cfg : SerialConf) (kind : CommType) (value : List SField)
    (stored : List SField) : List SField :=
  let base := match kind with
    | CommType.recurring => [cfg.recurringChar]
    | CommType.immediate => [cfg.immediateChar]
  (base ++ value).enum.map fun p =>
    if p.2 = nanField then stored.getD (p.1 - 1) [] else p.2

/-- First index at which pat occurs as a contiguous sublist, the semantics
of the find method on Python strings. -/
def subIdx (pat : List Char) : List Char → Option Nat
  | [] => if pat.isEmpty then some 0 else none
  | c :: rest =>
    if pat.isPrefixOf (c :: rest) then some 0
    else (subIdx pat rest).map (· + 1)

/-- Splits a response body on commas; an empty body yields one empty field,
matching the split method on Python strings. -/
def splitFields : List Char → List SField
  | [] => [[]]
  | c :: rest =>
    if c = ',' then [] :: splitFields rest
    else
      match splitFields rest with
      | f :: fs => (c :: f) :: fs
      | [] => [[c]]

/-- Joins fields with commas. -/
def joinFields (fs : List SField) : List Char :=
  (fs.intersperse [',']).flatten

/-- A full outgoing frame: parameter tag, comma joined fields, a trailing
comma and the outgoing terminator (line 289 of the source). -/
def frameFor (cfg : SerialConf) (param : List Char) (fields : List SField) :
    List Char :=
  param ++ joinFields fields ++ [','] ++ cfg.endOut

/-- The list the source calls returned_data: strip the address prefix and
the terminator plus one extra character from the response, then split on
commas (line 302 of the source). -/
def parsedFields (cfg : SerialConf) (param response : List Char) : List SField :=
  splitFields ((response.drop param.length).take
    (response.length - cfg.endIn.length - 1 - param.length))

deriving instance DecidableEq for Except

/-- The outcome of one serial round trip: the returned value or the raised
error, together with the frames written to the port in order. -/
structure SerialOutcome where
  result : Except SerialErr (Option (List SField))
  writes : List (List Char)
deriving DecidableEq, Repr

/-- Embedding of serial_communication.  The serial device is abstracted by
the response line it produces.  The outgoing shape comparison is written in
the source with the operator is on two int objects; here it is modelled by
inequality of the counts, the reading the configuration declares as
intended, and the identity semantics of the operator is analysed separately
through shapeCheckRaises. -/
def serialCommunication (cfg : SerialConf) (fieldsOut fieldsIn : Nat)
    (stored : List SField) (param : List Char) (value : List SField)
    (kind : CommType) (response : List Char) : SerialOutcome :=
  let output := buildOutput cfg kind value stored
  if output.length ≠ fieldsOut then
    { result := Except.error SerialErr.shapeOutgoing, writes := [] }
  else
    let outFrame := frameFor cfg param output
    if response.take param.length ≠ param then
      { result := Except.error SerialErr.addressMismatch, writes := [outFrame] }
    else if (match subIdx cfg.endIn response with
              | none => (-1 : Int)
              | some i => (i : Int)) ≠
            (response.length : Int) - (cfg.endIn.length : Int) then
      { result := Except.error SerialErr.termination, writes := [outFrame] }
    else
      let returnedData := parsedFields cfg param response
      if returnedData.length ≠ fieldsIn then
        { result := Except.error SerialErr.shapeIncoming, writes := [outFrame] }
      else if returnedData.headD [] = cfg.echoChar ∧
          output.drop 1 ≠ returnedData.drop 1 then
        { result := Except.error SerialErr.echoMismatch, writes := [outFrame] }
      else if returnedData.headD [] ≠ cfg.dataChar ∧
          returnedData.headD [] ≠ cfg.echoChar then
        { result := Except.error SerialErr.badSentinel, writes := [outFrame] }
      else
        let ackFrame := frameFor cfg param
          ((List.replicate fieldsOut ([] : SField)).set 0 cfg.ackChar)
        if returnedData.headD [] = cfg.dataChar then
          { result := Except.ok (some (returnedData.drop 1)),
            writes := [outFrame, ackFrame] }
        else
          { result := Except.ok none, writes := [outFrame, ackFrame] }

/-! ## The identity comparison of the outgoing shape check
    (evolver_server.py, line 285) -/

/-- A CPython int object: its value together with an object identity. -/
structure PyIntObj where
  val : Int
  objId : Nat
deriving DecidableEq, Repr

/-- The CPython discipline relating identity and value of int objects:
identical objects carry equal values, and equal values in the cached small
integer range share one object. -/
def cpythonIntDiscipline (a b : PyIntObj) : Prop :=
  (a.objId = b.objId → a.val = b.val) ∧
  (a.val = b.val ∧ -5 ≤ a.val ∧ a.val ≤ 256 → a.objId = b.objId)

/-- The test of line 285, written with the operator is not applied to the
length of the outgoing list and to the configured count: true when the two
int objects are distinct, which is when the code raises. -/
def shapeCheckRaises (a b : PyIntObj) : Bool :=
  decide (a.objId ≠ b.objId)

/-! ## Command queue and run_commands (evolver_server.py, lines 67 to 74,
    231 to 242 and 346 to 384) -/

/-- A queued command, one entry of command_queue. -/
structure SCommand where
  param : List Char
  value : List SField
  ctype : CommType
deriving DecidableEq, Repr

/-- The external inputs of one serial round trip: the field counts and
stored values the configuration holds for the parameter, and the device
response line. -/
structure CmdEnv where
  fieldsOut : Nat
  fieldsIn : Nat
  stored : List SField
  response : List Char

/-- The serial outcome of one command under a given environment. -/
def cmdResult (cfg : SerialConf) (env : SCommand → CmdEnv) (c : SCommand) :
    Except SerialErr (Option (List SField)) :=
  let e := env c
  (serialCommunication cfg e.fieldsOut e.fieldsIn e.stored c.param c.value
    c.ctype e.response).result

/-- Insertion ordered dictionary assignment, as on a Python dict. -/
def dictInsert (d : List (List Char × List SField)) (k : List Char)
    (v : List SField) : List (List Char × List SField) :=
  if d.any (fun p => p.1 == k) then
    d.map (fun p => if p.1 = k then (k, v) else p)
  else d ++ [(k, v)]

/-- Embedding of run_commands: pop each command from the front of the queue,
run the serial round trip, record returned data under the parameter key, and
on any caught serial error log it and continue with the next command.  The
log records every command with its outcome in execution order. -/
def runCommandsAux (cfg : SerialConf) (env : SCommand → CmdEnv) :
    List SCommand → List (List Char × List SField) →
    List (SCommand × Except SerialErr (Option (List SField))) →
    List (List Char × List SField) ×
      List (SCommand × Except SerialErr (Option (List SField)))
  | [], data, log => (data, log.reverse)
  | c :: rest, data, log =>
    let r := cmdResult cfg env c
    let data2 := match r with
      | Except.ok (some d) => dictInsert data c.param d
      | _ => data
    runCommandsAux cfg env rest data2 ((c, r) :: log)

/-- The data dictionary and the execution log of one run_commands call. -/
def runCommands (cfg : SerialConf) (env : SCommand → CmdEnv)
    (queue : List SCommand) :
    List (List Char × List SField) ×
      List (SCommand × Except SerialErr (Option (List SField))) :=
  runCommandsAux cfg env queue [] []

/-- The insert at index zero by which on_command queues an immediate
command (line 68 of the source). -/
def pushImmediateCmd (q : List SCommand) (c : SCommand) : List SCommand :=
  c :: q

/-- The queue effect of on_command for an immediate command, lines 67 to 74:
insert at the head; when no broadcast is running the queue is drained inline
by run_commands, otherwise the command stays buffered.  Returns the queue
afterwards and whether inline execution happened. -/
def onCommandImmediate (runningBroadcast : Bool) (q : List SCommand)
    (c : SCommand) : List SCommand × Bool :=
  let q2 := pushImmediateCmd q c
  if runningBroadcast then (q2, false) else ([], true)

/-- The serial work of one broadcast call, lines 346 to 370: refuse when an
immediate is running; otherwise drain the pending immediate queue through
run_commands, then run the recurring commands of the selected parameter
set. -/
def broadcastRun (cfg : SerialConf) (env : SCommand → CmdEnv)
    (runningImmediate : Bool) (queue recurringCmds : List SCommand) :
    Option ((List (List Char × List SField) ×
        List (SCommand × Except SerialErr (Option (List SField)))) ×
      (List (List Char × List SField) ×
        List (SCommand × Except SerialErr (Option (List SField))))) :=
  if runningImmediate then none
  else some (runCommands cfg env queue, runCommands cfg env recurringCmds)

/-- Serial transmission order of one broadcast: the commands of the
immediate drain followed by the commands of the recurring pass. -/
def transmissionOrder (cfg : SerialConf) (env : SCommand → CmdEnv)
    (runningImmediate : Bool) (queue recurringCmds : List SCommand) :
    Option (List SCommand) :=
  match broadcastRun cfg env runningImmediate queue recurringCmds with
  | none => none
  | some (r1, r2) => some (r1.2.map Prod.fst ++ r2.2.map Prod.fst)

/-! ## G-code builder, dispense mode (robotics_server.py, write_gcode,
    lines 180 to 211) -/

/-- Motor connection settings of one syringe pump. -/
structure MotorConn where
  plunger : String
  valve : String
  valveSteps : Int
deriving DecidableEq, Repr

/-- The global pump configuration fields write_gcode reads in dispense
mode. -/
structure GPumpConf where
  plungerSpeedOut : Nat
  primingSteps : Int
deriving DecidableEq, Repr

/-- The accumulator of the per pump loop: the two slot command arrays, the
running count and the step value of the pump the loop variable last held. -/
structure DispenseState where
  plungerOutArr : List String
  primeArr : List String
  valveOnArr : List String
  valveOffArr : List String
  count : Nat
  lastSteps : Int
deriving DecidableEq, Repr

/-- One pass of the dispense loop, lines 181 to 197.  The conditional that
writes a zero valve actuation for a zero step pump is immediately followed
by the unconditional assignments of lines 195 and 196, exactly as in the
source, so its effect is overwritten. -/
def dispenseStep (pc : GPumpConf) (primed : Bool) (st : DispenseState)
    (inst : MotorConn × Int) : DispenseState :=
  let mc := inst.1
  let steps := inst.2
  let po := st.plungerOutArr.set st.count (mc.plunger ++ "-" ++ toString steps)
  let po := if primed ∧ steps ≠ 0 then
      po.set st.count (mc.plunger ++ "-" ++ toString (steps + pc.primingSteps))
    else po
  let pr := if primed ∧ steps ≠ 0 then
      st.primeArr.set st.count (mc.plunger ++ toString pc.primingSteps)
    else st.primeArr
  let von := if steps = 0 then
      st.valveOnArr.set st.count (mc.valve ++ toString (0 : Int))
    else st.valveOnArr
  let voff := if steps = 0 then
      st.valveOffArr.set st.count (mc.valve ++ toString (0 : Int))
    else st.valveOffArr
  let von := von.set st.count (mc.valve ++ toString mc.valveSteps)
  let voff := voff.set st.count (mc.valve ++ toString (mc.valveSteps * -1))
  { plungerOutArr := po, primeArr := pr, valveOnArr := von,
    valveOffArr := voff, count := st.count + 1, lastSteps := steps }

/-- The initial accumulator: two element arrays of empty strings. -/
def dispenseInit : DispenseState :=
  { plungerOutArr := ["", ""], primeArr := ["", ""], valveOnArr := ["", ""],
    valveOffArr := ["", ""], count := 0, lastSteps := 0 }

/-- The valve on and valve off commands the combine step of write_gcode
selects, namely the index zero entries of the accumulated arrays. -/
def dispenseValveCmds (pc : GPumpConf) (instructions : List (MotorConn × Int))
    (primed : Bool) : String × String :=
  let st := instructions.foldl (dispenseStep pc primed) dispenseInit
  (st.valveOnArr.getD 0 "", st.valveOffArr.getD 0 "")

/-- The dispense gcode text write_gcode produces, lines 199 to 211: combine
the index zero commands and use the primed variant when primed_status holds
and the step count of the pump the loop variable last held is nonzero. -/
def writeGcodeDispense (pc : GPumpConf) (instructions : List (MotorConn × Int))
    (primed : Bool) : String :=
  let st := instructions.foldl (dispenseStep pc primed) dispenseInit
  let valveOn := st.valveOnArr.getD 0 ""
  let valveOff := st.valveOffArr.getD 0 ""
  let plungerOut := st.plungerOutArr.getD 0 ""
  let primeCmd := st.primeArr.getD 0 ""
  if primed ∧ st.lastSteps ≠ 0 then
    "G91\nG1 " ++ valveOn ++ " F20000\nG4 P100\nG1 " ++ plungerOut ++ " F" ++
      toString pc.plungerSpeedOut ++ "\nG4 P100\nG1 " ++ primeCmd ++
      " F15000\nG4 P100\nG1 " ++ valveOff ++ " F20000\nM18"
  else
    "G91\nG1 " ++ valveOn ++ " F20000\nG4 P100\nG1 " ++ plungerOut ++ " F" ++
      toString pc.plungerSpeedOut ++ "\nG4 P100\nG1 " ++ valveOff ++
      " F20000\nM18"

/-! ## Robotics status, routine guards and event handlers
    (robotics_server.py, lines 282 to 298, 347 to 397, 558, 631, 664, 715,
    1042 to 1161) -/

/-- The mode relevant part of the robotics_status record.  Modes are the
literal strings the source stores. -/
structure RStatus where
  mode : String
  primeInflux : Bool
  primeEfflux : Bool
  errorCode : Int
  warnCode : Int
  armState : Option Int
deriving DecidableEq, Repr

/-- The payload of an override_robotics_status event; a missing or falsy
prime_status dictionary is modelled as none. -/
structure OverrideData where
  mode : String
  primeStatus : Option (Bool × Bool)
  resetArm : Bool
deriving DecidableEq, Repr

/-- stop_robotics, line 387: set the mode to emergency_stop; the job
cancellations and disconnections do not touch the mode. -/
def stopRobotics (st : RStatus) : RStatus :=
  { st with mode := "emergency_stop" }

/-- on_pause_robotics, line 1045: set the mode to pause unconditionally. -/
def onPauseRobotics (st : RStatus) : RStatus :=
  { st with mode := "pause" }

/-- on_resume_robotics, line 1051: set the mode to idle unconditionally. -/
def onResumeRobotics (st : RStatus) : RStatus :=
  { st with mode := "idle" }

/-- on_override_robotics_status, lines 1154 to 1161: adopt the requested
mode when it belongs to the allowed list, then overwrite the prime status
when one is supplied; clearing arm errors does not touch the mode. -/
def onOverrideRoboticsStatus (d : OverrideData) (st : RStatus) : RStatus :=
  let st := if d.mode = "idle" ∨ d.mode = "fill_tubing" ∨
      d.mode = "priming" ∨ d.mode = "influx" ∨ d.mode = "pause" ∨
      d.mode = "resume" then { st with mode := d.mode } else st
  match d.primeStatus with
  | some p => { st with primeInflux := p.1, primeEfflux := p.2 }
  | none => st

/-- error_warn_change_callback, lines 347 to 356: record both codes, then
call stop_robotics when the error code is nonzero; a bare warning leaves the
mode alone. -/
def errorWarnChangeCallback (ec wc : Int) (st : RStatus) : RStatus :=
  let st := { st with errorCode := ec, warnCode := wc }
  if ec ≠ 0 then stopRobotics st else st

/-- state_changed_callback, lines 358 to 365: record the arm state, then
call stop_robotics when the state is 4. -/
def stateChangedCallback (s : Int) (st : RStatus) : RStatus :=
  let st := { st with armState := some s }
  if s = 4 then stopRobotics st else st

/-- The acceptance guard of influx_snake_helper, line 715. -/
def influxSnakeAccepts (st : RStatus) : Bool :=
  st.mode = "idle" || st.mode = "pause"

/-- The acceptance guard of fill_tubing_helper, line 664. -/
def fillTubingAccepts (st : RStatus) : Bool :=
  st.mode = "idle"

/-- The acceptance guard of prime_influx_helper, line 558. -/
def primeInfluxAccepts (st : RStatus) : Bool :=
  st.mode = "idle" && !st.primeInflux

/-- The acceptance guard of prime_efflux_helper, line 631. -/
def primeEffluxAccepts (st : RStatus) : Bool :=
  st.mode = "idle" && !st.primeEfflux

/-! ## check_status (robotics_server.py, lines 421 to 461) -/

/-- One parsed print server job status; a missing key of the JSON body is
modelled as none, and a null completion value, which also raises on
comparison, is folded into none as well. -/
structure RawStatus where
  state : Option String
  completion : Option Int
  jobName : Option String
deriving DecidableEq, Repr

/-- The result dictionary check_status returns; statuses holds one slot per
print server instance, none while that slot still carries the initial empty
dictionary. -/
structure CheckResult where
  acceptNewJobs : Bool
  statuses : List (Option RawStatus)
deriving DecidableEq, Repr

/-- The second component of os.path.split, the file name after the final
slash. -/
def basename (p : String) : String :=
  ((p.splitOn "/").getLast? ).getD ""

/-- The completion condition of line 452, with the evaluation order and the
short circuit of the Python conjunction: the completion field is read first,
the state only when completion reaches 100, the job file name only when the
state is Operational.  A none result stands for the KeyError or TypeError
the corresponding access raises. -/
def jobDoneCheck (st : RawStatus) (filename : String) : Option Bool :=
  match st.completion with
  | none => none
  | some comp =>
    if comp ≥ 100 then
      match st.state with
      | none => none
      | some s =>
        if s = "Operational" then
          match st.jobName with
          | none => none
          | some jn => some (decide (jn = filename))
        else some false
    else some false

/-- The result of asyncio.gather over the per instance status requests:
none when any request raised, otherwise the list of parsed bodies. -/
def collectOk : List (Except String RawStatus) → Option (List RawStatus)
  | [] => some []
  | Except.error _ :: _ => none
  | Except.ok st :: rest =>
    match collectOk rest with
    | none => none
    | some sts => some (st :: sts)

/-- The parsing loop of check_status over the instances, carried by the list
of their numeric ids.  Any lookup failure or field access failure is the
exception the except clause catches: the loop stops, the remaining status
slots keep their initial value and accept_new_jobs stays false.  When the
loop completes, accept_new_jobs holds exactly when the number of completed
jobs equals the number of gcode paths. -/
def checkLoop (sts : List RawStatus) (paths : List String) :
    List Nat → List (Option RawStatus) → Nat → CheckResult
  | [], acc, jobs =>
    { acceptNewJobs := decide (jobs = paths.length), statuses := acc.reverse }
  | idx :: rest, acc, jobs =>
    match sts.get? idx with
    | none =>
      { acceptNewJobs := false,
        statuses := acc.reverse ++ List.replicate (rest.length + 1) none }
    | some st =>
      if paths.isEmpty then
        checkLoop sts paths rest (some st :: acc) jobs
      else
        match paths.get? idx with
        | none =>
          { acceptNewJobs := false,
            statuses := (some st :: acc).reverse ++
              List.replicate rest.length none }
        | some p =>
          match jobDoneCheck st (basename p) with
          | none =>
            { acceptNewJobs := false,
              statuses := (some st :: acc).reverse ++
                List.replicate rest.length none }
          | some b =>
            checkLoop sts paths rest (some st :: acc)
              (if b then jobs + 1 else jobs)

/-- Embedding of check_status.  The per instance HTTP requests are
abstracted by their outcomes, ids carries the numeric id of each instance in
iteration order, paths the gcode paths argument.  The try, except and
finally structure of the source guarantees a result record is returned on
every input. -/
def checkStatus (fetches : List (Except String RawStatus))
    (paths : List String) (ids : List Nat) : CheckResult :=
  match collectOk fetches with
  | none =>
    { acceptNewJobs := false, statuses := List.replicate fetches.length none }
  | some sts => checkLoop sts paths ids [] 0

/-- Whether an outcome is a raised exception. -/
def exceptIsError {ε α : Type} : Except ε α → Bool
  | Except.error _ => true
  | Except.ok _ => false

/-! ## Concrete instances used by counterexamples and witnesses -/

/-- A concrete serial configuration with one character sentinels. -/
def cfgEx : SerialConf :=
  { immediateChar := ['I'], recurringChar := ['R'], ackChar := ['A'],
    echoChar := ['E'], dataChar := ['D'], endOut := ['e', 'n', 'd'],
    endIn := ['e', 'n', 'd'] }

/-- An environment under which every round trip fails its outgoing shape
check. -/
def envTrivial : SCommand → CmdEnv :=
  fun _ => { fieldsOut := 0, fieldsIn := 0, stored := [], response := [] }

/-- A first concrete immediate command. -/
def cmdA : SCommand :=
  { param := ['s', 't'], value := [['1']], ctype := CommType.immediate }

/-- A second concrete immediate command. -/
def cmdB : SCommand :=
  { param := ['p', 'h'], value := [['2']], ctype := CommType.immediate }

/-- A command whose round trip succeeds under envMixed. -/
def cmdGood : SCommand :=
  { param := ['s', 't'], value := [['8']], ctype := CommType.immediate }

/-- A command whose round trip fails its shape check under envMixed. -/
def cmdBad : SCommand :=
  { param := ['p', 'h'], value := [['2']], ctype := CommType.immediate }

/-- The response of the device to cmdGood: a DATA frame with payload 5. -/
def respData : List Char := ['s', 't', 'D', ',', '5', ',', 'e', 'n', 'd']

/-- The response of the device to an echo round trip of cmdGood. -/
def respEcho : List Char := ['s', 't', 'E', ',', '8', ',', 'e', 'n', 'd']

/-- An environment under which cmdGood succeeds with a DATA payload and
every other command fails its outgoing shape check. -/
def envMixed : SCommand → CmdEnv := fun c =>
  if c.param = ['s', 't'] then
    { fieldsOut := 2, fieldsIn := 2, stored := [], response := respData }
  else
    { fieldsOut := 0, fieldsIn := 0, stored := [], response := [] }

/-- A status record in emergency stop. -/
def esStatus : RStatus :=
  { mode := "emergency_stop", primeInflux := true, primeEfflux := true,
    errorCode := 0, warnCode := 0, armState := some 0 }

/-- A concrete motor connection for the dispense counterexample. -/
def mcEx : MotorConn := { plunger := "X", valve := "V", valveSteps := 200 }

/-- A concrete global pump configuration for the dispense counterexample. -/
def gpcEx : GPumpConf := { plungerSpeedOut := 10000, primingSteps := 100 }

/-! ## Helper lemmas -/

theorem listSetGetNe {α : Type} : ∀ (l : List α) (a : α) (i j : Nat), i ≠ j →
    (l.set i a).get? j = l.get? j
  | [], _, _, _, _ => rfl
  | _ :: _, _, 0, 0, h => absurd rfl h
  | _ :: _, _, 0, _ + 1, _ => rfl
  | _ :: _, _, _ + 1, 0, _ => rfl
  | _ :: t, a, i + 1, j + 1, h =>
    listSetGetNe t a i j (fun hh => h (congrArg (· + 1) hh))

theorem listSetGetEq {α : Type} : ∀ (l : List α) (a : α) (i : Nat),
    i < l.length → (l.set i a).get? i = some a
  | [], _, _, h => absurd h (by simp)
  | _ :: _, _, 0, _ => rfl
  | _ :: t, a, i + 1, h => listSetGetEq t a i (Nat.lt_of_succ_lt_succ h)

theorem updateStoredFrom_length : ∀ (update stored : List SVal) (j : Nat),
    (updateStoredFrom stored j update).length = stored.length := by
  intro update
  induction update with
  | nil => intro stored j; rfl
  | cons v rest ih =>
    intro stored j
    simp only [updateStoredFrom]
    rw [ih]
    split <;> simp

theorem updateStoredFrom_get_lt : ∀ (update stored : List SVal) (j i : Nat),
    i < j → (updateStoredFrom stored j update).get? i = stored.get? i := by
  intro update
  induction update with
  | nil => intro stored j i _; rfl
  | cons v rest ih =>
    intro stored j i hij
    simp only [updateStoredFrom]
    rw [ih _ _ _ (Nat.lt_succ_of_lt hij)]
    split
    · rfl
    · exact listSetGetNe stored v j i (Nat.ne_of_gt hij)

theorem updateStoredFrom_get_ge : ∀ (update stored : List SVal) (j i : Nat),
    j + update.length ≤ i →
    (updateStoredFrom stored j update).get? i = stored.get? i := by
  intro update
  induction update with
  | nil => intro stored j i _; rfl
  | cons v rest ih =>
    intro stored j i hle
    simp only [List.length_cons] at hle
    simp only [updateStoredFrom]
    rw [ih _ (j + 1) i (by omega)]
    split
    · rfl
    · exact listSetGetNe stored v j i (by omega)

theorem updateStoredFrom_get_in : ∀ (update stored : List SVal) (j i : Nat),
    j + update.length ≤ stored.length → j ≤ i → i - j < update.length →
    (updateStoredFrom stored j update).get? i =
      (match update.get? (i - j) with
       | some v => if v = SVal.nan then stored.get? i else some v
       | none => stored.get? i) := by
  intro update
  induction update with
  | nil => intro stored j i _ _ hlt; simp at hlt
  | cons v rest ih =>
    intro stored j i hfit hji hlt
    simp only [List.length_cons] at hfit hlt
    by_cases hij : i = j
    · subst hij
      have hz : i - i = 0 := by omega
      rw [hz]
      simp only [updateStoredFrom, List.get?]
      rw [updateStoredFrom_get_lt rest _ (i + 1) i (Nat.lt_succ_self i)]
      by_cases hv : v = SVal.nan
      · simp [hv]
      · rw [if_neg hv, if_neg hv, listSetGetEq stored v i (by omega)]
    · have hsplit : i - j = (i - (j + 1)) + 1 := by omega
      simp only [updateStoredFrom]
      have hlen2 : (if v = SVal.nan then stored else stored.set j v).length =
          stored.length := by split <;> simp
      rw [ih _ (j + 1) i (by omega) (by omega) (by omega)]
      rw [hsplit]
      simp only [List.get?]
      have hside : (if v = SVal.nan then stored else stored.set j v).get? i =
          stored.get? i := by
        split
        · rfl
        · exact listSetGetNe stored v j i (fun hh => hij (hh.symm))
      rw [hside]

theorem windowSeqAux_length (f : Bool) (nvw pumpNum : Nat) (row : List Nat)
    (pm : List String) : ∀ (count x : Nat) (st : List Nat × List String),
    (windowSeqAux f nvw pumpNum row pm count x st).length = count := by
  intro count
  induction count with
  | zero => intro x st; rfl
  | succ n ih =>
    intro x st
    simp only [windowSeqAux, List.length_cons, ih]

theorem runCommandsAux_log (cfg : SerialConf) (env : SCommand → CmdEnv) :
    ∀ (q : List SCommand) (data : List (List Char × List SField))
      (log : List (SCommand × Except SerialErr (Option (List SField)))),
      (runCommandsAux cfg env q data log).2 =
        log.reverse ++ q.map (fun c => (c, cmdResult cfg env c)) := by
  intro q
  induction q with
  | nil => intro data log; simp [runCommandsAux]
  | cons c rest ih =>
    intro data log
    simp only [runCommandsAux, List.map_cons]
    rw [ih]
    simp

theorem runCommandsAux_data_err (cfg : SerialConf) (env : SCommand → CmdEnv) :
    ∀ (q : List SCommand) (data : List (List Char × List SField))
      (log : List (SCommand × Except SerialErr (Option (List SField)))),
      (∀ c ∈ q, exceptIsError (cmdResult cfg env c) = true) →
      (runCommandsAux cfg env q data log).1 = data := by
  intro q
  induction q with
  | nil => intro data log _; rfl
  | cons c rest ih =>
    intro data log hall
    simp only [runCommandsAux]
    have hc := hall c (List.mem_cons_self c rest)
    cases hr : cmdResult cfg env c with
    | error e =>
      exact ih _ _ (fun d hd => hall d (List.mem_cons_of_mem c hd))
    | ok v =>
      rw [hr] at hc
      simp [exceptIsError] at hc

theorem collectOk_eq_none :
    ∀ (fetches : List (Except String RawStatus)),
      (∃ f ∈ fetches, exceptIsError f = true) → collectOk fetches = none := by
  intro fetches
  induction fetches with
  | nil => rintro ⟨f, hf, _⟩; cases hf
  | cons g rest ih =>
    rintro ⟨f, hf, he⟩
    cases g with
    | error e => rfl
    | ok st =>
      simp only [collectOk]
      have hmem : f ∈ rest := by
        rcases List.mem_cons.mp hf with rfl | hm
        · simp [exceptIsError] at he
        · exact hm
      rw [ih ⟨f, hmem, he⟩]

theorem checkLoop_accept (sts : List RawStatus) (paths : List String) :
    ∀ (ids : List Nat) (acc : List (Option RawStatus)) (jobs : Nat),
      (checkLoop sts paths ids acc jobs).acceptNewJobs = true →
      ∀ idx ∈ ids, ∃ st, sts.get? idx = some st ∧
        (paths ≠ [] → ∃ p, paths.get? idx = some p ∧
          jobDoneCheck st (basename p) ≠ none) := by
  intro ids
  induction ids with
  | nil => intro acc jobs _ idx hidx; cases hidx
  | cons i rest ih =>
    intro acc jobs h idx hidx
    cases hg : sts.get? i with
    | none =>
      simp only [checkLoop, hg] at h
      exact absurd h (by decide)
    | some st =>
      simp only [checkLoop, hg] at h
      by_cases hp : paths.isEmpty = true
      · rw [if_pos hp] at h
        rcases List.mem_cons.mp hidx with rfl | hmem
        · exact ⟨st, hg, fun hne => absurd (List.isEmpty_iff.mp hp) hne⟩
        · exact ih _ _ h idx hmem
      · rw [if_neg hp] at h
        cases hpg : paths.get? i with
        | none =>
          simp only [hpg] at h
          exact absurd h (by decide)
        | some p =>
          simp only [hpg] at h
          cases hjd : jobDoneCheck st (basename p) with
          | none =>
            simp only [hjd] at h
            exact absurd h (by decide)
          | some b =>
            simp only [hjd] at h
            rcases List.mem_cons.mp hidx with rfl | hmem
            · exact ⟨st, hg, fun _ => ⟨p, hpg, by rw [hjd]; simp⟩⟩
            · exact ih _ _ h idx hmem

/-! ## Claim theorems -/

/-- C1: the claim states that for a pump with max_steps M and requested
steps S the snake routine issues exactly floor(S / M) events with
instruction M followed by one event with instruction S mod M, total S.  The
code instead overwrites the last full stroke with the fractional count,
because the second test of the loop is an if rather than an elif: for
M = 500 and S = 750 it issues the single event 250 instead of 500 then 250,
and for S = 1000 it issues 500 then 0, dispensing 500 instead of 1000.  The
requested behaviour, specStepDecomposition, is met only when S is below
M. -/
theorem c1_step_decomposition_bug :
    pumpEvents 500 750 = [some 250] ∧
    specStepDecomposition 500 750 = [500, 250] ∧
    totalSteps (pumpEvents 500 750) = 250 ∧
    pumpEvents 500 1000 = [some 500, some 0] ∧
    specStepDecomposition 500 1000 = [500, 500, 0] ∧
    totalSteps (pumpEvents 500 1000) = 500 ∧
    totalSteps (pumpEvents 500 1000) ≠ 1000 ∧
    pumpEvents 500 250 = [some 250] := by
  decide

/-- C2, counterexample: with two pumps of uniform fluid type and the row
0 to 5, the window generator of influx_snake_helper does not produce the
claimed sliding sequence; the inverted uniform_pump_types flag sends uniform
configurations into the slice branch, which yields the whole row once and
then six empty windows. -/
theorem c2_uniform_window_counterexample :
    (influxWindows ["media", "media"] ["pump_a", "pump_b"]
        [0, 1, 2, 3, 4, 5] 2).map Prod.fst =
      [[0, 1, 2, 3, 4, 5], [], [], [], [], [], []] ∧
    ([[0, 1, 2, 3, 4, 5], [], [], [], [], [], []] : List (List Nat)) ≠
      [[0], [0, 1], [1, 2], [2, 3], [3, 4], [4, 5], [5]] := by
  decide

/-- C2, amended: the sliding behaviour the claim describes is produced when
the pump fluid types are heterogeneous, because the source sets its
uniform_pump_types flag to true exactly when the type set has more than one
element; for two pumps of distinct types and the row 0 to 5 the windows are
the claimed sequence 0, 01, 12, 23, 34, 45, 5, and for every configuration
the number of windows per row is 6 + (P - 1). -/
theorem c2_window_sliding_amended :
    (influxWindows ["media", "ethanol"] ["pump_a", "pump_b"]
        [0, 1, 2, 3, 4, 5] 2).map Prod.fst =
      [[0], [0, 1], [1, 2], [2, 3], [3, 4], [4, 5], [5]] ∧
    ∀ (pumpTypes pumpMap : List String) (row : List Nat) (pumpNum : Nat),
      (influxWindows pumpTypes pumpMap row pumpNum).length =
        6 + (pumpNum - 1) := by
  constructor
  · decide
  · intro pt pm row pn
    simp [influxWindows, windowSeqAux_length]

/-- C3, counterexample: two immediate commands pushed in order cmdA then
cmdB while a broadcast is running are both buffered, but at the next
broadcast drain they are transmitted in the order cmdB then cmdA, because
on_command inserts at the head of the queue while run_commands pops from the
front; the claimed FIFO order does not hold. -/
theorem c3_fifo_counterexample :
    (onCommandImmediate true [] cmdA).2 = false ∧
    (onCommandImmediate true (onCommandImmediate true [] cmdA).1 cmdB).2 =
      false ∧
    transmissionOrder cfgEx envTrivial false
        (onCommandImmediate true (onCommandImmediate true [] cmdA).1 cmdB).1
        [] =
      some [cmdB, cmdA] ∧
    ([cmdB, cmdA] : List SCommand) ≠ [cmdA, cmdB] := by
  decide

/-- C3, amended: immediate commands pushed while a broadcast is running are
not executed during that broadcast and are transmitted at the start of the
next broadcast drain ahead of the recurring commands, but in reverse push
order, last in first out. -/
theorem c3_lifo_amended (cfg : SerialConf) (env : SCommand → CmdEnv)
    (c1 c2 : SCommand) (recurringCmds : List SCommand) :
    (onCommandImmediate true [] c1).2 = false ∧
    (onCommandImmediate true (onCommandImmediate true [] c1).1 c2).2 =
      false ∧
    transmissionOrder cfg env false
        (onCommandImmediate true (onCommandImmediate true [] c1).1 c2).1
        recurringCmds =
      some ([c2, c1] ++ recurringCmds) := by
  refine ⟨rfl, rfl, ?_⟩
  simp [transmissionOrder, broadcastRun, runCommands, runCommandsAux_log,
    onCommandImmediate, pushImmediateCmd, List.map_map, Function.comp_def]

/-- C4: a command event updating a stored vector with a partial update list
keeps every slot whose update entry is the NaN sentinel, writes every other
entry through, and preserves the length of the vector; in particular
updating a stored vector a, b, c with NaN, x, NaN yields a, x, c. -/
theorem c4_nan_partial_update :
    (∀ a b c x : SVal, x ≠ SVal.nan →
      updateStored [a, b, c] [SVal.nan, x, SVal.nan] = [a, x, c]) ∧
    (∀ stored update : List SVal,
      (updateStored stored update).length = stored.length) ∧
    (∀ stored update : List SVal, ∀ i : Nat,
      update.length ≤ stored.length → i < update.length →
      (updateStored stored update).get? i =
        (if update.get? i = some SVal.nan then stored.get? i
         else update.get? i)) ∧
    (∀ stored update : List SVal, ∀ i : Nat, update.length ≤ i →
      (updateStored stored update).get? i = stored.get? i) := by
  refine ⟨?_, ?_, ?_, ?_⟩
  · intro a b c x hx
    simp [updateStored, updateStoredFrom, hx]
  · intro stored update
    exact updateStoredFrom_length update stored 0
  · intro stored update i hlen hi
    rw [updateStored, updateStoredFrom_get_in update stored 0 i
      (by omega) (Nat.zero_le i) (by omega)]
    cases hu : update.get? i with
    | none =>
      exact absurd (List.get?_eq_none.mp hu) (by omega)
    | some v =>
      rw [List.get?_eq_getElem?] at hu
      by_cases hv : v = SVal.nan
      · simp [hu, hv, List.get?_eq_getElem?]
      · simp [hu, hv, List.get?_eq_getElem?]
  · intro stored update i hle
    exact updateStoredFrom_get_ge update stored 0 i (by omega)

/-- C4, witness: a concrete partial update. -/
theorem c4_nan_partial_update_witness :
    updateStored [SVal.num 1, SVal.num 2, SVal.num 3]
        [SVal.nan, SVal.num 9, SVal.nan] =
      [SVal.num 1, SVal.num 9, SVal.num 3] :=
  c4_nan_partial_update.1 (SVal.num 1) (SVal.num 2) (SVal.num 3)
    (SVal.num 9) (by decide)

/-- C5: the outgoing shape test compares with the operator is not, that is
by object identity.  Distinct counts are never identical, so a genuine
mismatch always raises before anything is written; but two equal counts
outside the cached small integer range may be distinct objects, so the test
can raise although the counts agree, as witnessed by two int objects of
value 1000.  The raise itself hands a plain string to the raise statement,
a TypeError rather than an EvolverSerialError.  When the check fails,
nothing has been written to the serial port. -/
theorem c5_shape_check_identity :
    (∀ a b : PyIntObj, cpythonIntDiscipline a b → a.val ≠ b.val →
      shapeCheckRaises a b = true) ∧
    (cpythonIntDiscipline ⟨1000, 7⟩ ⟨1000, 8⟩ ∧
      (⟨1000, 7⟩ : PyIntObj).val = (⟨1000, 8⟩ : PyIntObj).val ∧
      shapeCheckRaises ⟨1000, 7⟩ ⟨1000, 8⟩ = true) ∧
    (∀ (cfg : SerialConf) (fieldsOut fieldsIn : Nat) (stored : List SField)
      (param : List Char) (value : List SField) (kind : CommType)
      (response : List Char),
      (buildOutput cfg kind value stored).length ≠ fieldsOut →
      serialCommunication cfg fieldsOut fieldsIn stored param value kind
          response =
        { result := Except.error SerialErr.shapeOutgoing, writes := [] }) := by
  refine ⟨?_, ⟨⟨fun _ => rfl, fun h => absurd h.2.2 (by decide)⟩, rfl,
    by decide⟩, ?_⟩
  · intro a b hd hv
    simp only [shapeCheckRaises, decide_eq_true_eq]
    intro heq
    exact hv (hd.1 heq)
  · intro cfg fieldsOut fieldsIn stored param value kind response hne
    simp only [serialCommunication]
    rw [if_pos hne]

/-- C5, witness: the general half applied to two small distinct counts, and
the pipeline half applied to a concrete command whose field count
mismatches. -/
theorem c5_shape_check_identity_witness :
    shapeCheckRaises ⟨3, 11⟩ ⟨4, 12⟩ = true ∧
    serialCommunication cfgEx 5 0 [] [] [] CommType.immediate [] =
      { result := Except.error SerialErr.shapeOutgoing, writes := [] } :=
  ⟨c5_shape_check_identity.1 ⟨3, 11⟩ ⟨4, 12⟩
      ⟨fun h => absurd h (by decide), fun h => absurd h.1 (by decide)⟩
      (by decide),
    c5_shape_check_identity.2.2 cfgEx 5 0 [] [] [] CommType.immediate []
      (by decide)⟩

/-- C6, counterexample: from emergency stop, a resume_robotics event sets
the mode to idle and a pause_robotics event sets it to pause, both
unconditionally, so override_robotics_status is not the only way to leave
the emergency stop mode. -/
theorem c6_estop_resume_counterexample :
    esStatus.mode = "emergency_stop" ∧
    (onResumeRobotics esStatus).mode = "idle" ∧
    (onPauseRobotics esStatus).mode = "pause" ∧
    "idle" ≠ "emergency_stop" := by
  refine ⟨rfl, rfl, rfl, ?_⟩
  decide

/-- C6, amended: while the mode is emergency_stop no routine accepts a new
request, the arm callbacks never move the mode away from emergency_stop,
and an override event with mode idle restores idle; however the pause and
resume handlers set the mode unconditionally, so they too move the mode
away from emergency_stop. -/
theorem c6_estop_amended (st : RStatus) (h : st.mode = "emergency_stop") :
    influxSnakeAccepts st = false ∧
    fillTubingAccepts st = false ∧
    primeInfluxAccepts st = false ∧
    primeEffluxAccepts st = false ∧
    (∀ ec wc : Int,
      (errorWarnChangeCallback ec wc st).mode = "emergency_stop") ∧
    (∀ s : Int, (stateChangedCallback s st).mode = "emergency_stop") ∧
    (∀ d : OverrideData, d.mode = "idle" →
      (onOverrideRoboticsStatus d st).mode = "idle") ∧
    (onResumeRobotics st).mode = "idle" ∧
    (onPauseRobotics st).mode = "pause" := by
  refine ⟨?_, ?_, ?_, ?_, ?_, ?_, ?_, rfl, rfl⟩
  · simp [influxSnakeAccepts, h]
  · simp [fillTubingAccepts, h]
  · simp [primeInfluxAccepts, h]
  · simp [primeEffluxAccepts, h]
  · intro ec wc
    simp only [errorWarnChangeCallback]
    split
    · rfl
    · exact h
  · intro s
    simp only [stateChangedCallback]
    split
    · rfl
    · exact h
  · intro d hd
    simp only [onOverrideRoboticsStatus, hd]
    cases d.primeStatus <;> simp

/-- C6, witness: the amended statement at the concrete emergency stop
record. -/
theorem c6_estop_amended_witness :
    influxSnakeAccepts esStatus = false ∧
    (onResumeRobotics esStatus).mode = "idle" :=
  ⟨(c6_estop_amended esStatus rfl).1,
    (c6_estop_amended esStatus rfl).2.2.2.2.2.2.2.1⟩

/-- C7: the claim states that a zero step pump produces a no-op dispense,
with valve on and valve off commands carrying zero steps.  The zero branch
of write_gcode is immediately overwritten by the unconditional valve
assignments, so a pump instructed zero steps still receives the full valve
actuation: with valve V and valve_steps 200 the emitted commands are V200
and V-200 rather than V0 and V0, and the dispense program actuates the
valve around a zero length plunger stroke. -/
theorem c7_zero_step_valve_bug :
    dispenseValveCmds gpcEx [(mcEx, 0)] false = ("V200", "V-200") ∧
    (("V200", "V-200") : String × String) ≠ ("V0", "V0") ∧
    writeGcodeDispense gpcEx [(mcEx, 0)] false =
      "G91\nG1 V200 F20000\nG4 P100\nG1 X-0 F10000\nG4 P100\nG1 V-200 F20000\nM18" := by
  refine ⟨rfl, ?_, rfl⟩
  decide

/-- C8: a serial round trip that passes all validations returns the payload
after the sentinel when the response sentinel is the data character, and
returns none when it is the echo character; the none return is only reached
after the echoed payload has been checked equal to the transmitted fields
from the second one on, and when that equality fails with the validations
before it passing, the round trip raises the echo mismatch error. -/
theorem c8_echo_data_semantics (cfg : SerialConf) (fieldsOut fieldsIn : Nat)
    (stored : List SField) (param : List Char) (value : List SField)
    (kind : CommType) (response : List Char) :
    (∀ d, (serialCommunication cfg fieldsOut fieldsIn stored param value kind
        response).result = Except.ok (some d) →
      (parsedFields cfg param response).headD [] = cfg.dataChar ∧
      d = (parsedFields cfg param response).drop 1) ∧
    ((serialCommunication cfg fieldsOut fieldsIn stored param value kind
        response).result = Except.ok none →
      (parsedFields cfg param response).headD [] = cfg.echoChar ∧
      (buildOutput cfg kind value stored).drop 1 =
        (parsedFields cfg param response).drop 1) ∧
    ((buildOutput cfg kind value stored).length = fieldsOut →
      response.take param.length = param →
      (match subIdx cfg.endIn response with
        | none => (-1 : Int)
        | some i => (i : Int)) =
        (response.length : Int) - (cfg.endIn.length : Int) →
      (parsedFields cfg param response).length = fieldsIn →
      (parsedFields cfg param response).headD [] = cfg.echoChar →
      (buildOutput cfg kind value stored).drop 1 ≠
        (parsedFields cfg param response).drop 1 →
      (serialCommunication cfg fieldsOut fieldsIn stored param value kind
        response).result = Except.error SerialErr.echoMismatch) := by
  refine ⟨?_, ?_, ?_⟩
  · intro d h
    simp only [serialCommunication] at h
    split_ifs at h with h1 h2 h3 h4 h5 h6 h7
    all_goals simp_all
  · intro h
    simp only [serialCommunication] at h
    split_ifs at h with h1 h2 h3 h4 h5 h6 h7
    all_goals simp_all
  · intro hlen haddr hterm hshape hecho hneq
    simp only [serialCommunication]
    rw [if_neg (fun hn => hn hlen), if_neg (fun hn => hn haddr),
      if_neg (fun hn => hn hterm), if_neg (fun hn => hn hshape),
      if_pos ⟨hecho, hneq⟩]

/-- C8, witness: a concrete data round trip and a concrete echo round trip
through the same configuration. -/
theorem c8_echo_data_semantics_witness :
    ((parsedFields cfgEx ['s', 't'] respData).headD [] = cfgEx.dataChar ∧
      [['5']] = (parsedFields cfgEx ['s', 't'] respData).drop 1) ∧
    ((parsedFields cfgEx ['s', 't'] respEcho).headD [] = cfgEx.echoChar ∧
      (buildOutput cfgEx CommType.immediate [['8']] []).drop 1 =
        (parsedFields cfgEx ['s', 't'] respEcho).drop 1) :=
  ⟨(c8_echo_data_semantics cfgEx 2 2 [] ['s', 't'] [['8']]
      CommType.immediate respData).1 [['5']] (by decide),
    (c8_echo_data_semantics cfgEx 2 2 [] ['s', 't'] [['8']]
      CommType.immediate respEcho).2.1 (by decide)⟩

/-- C9, counterexample: a run over the queue cmdBad then cmdGood, where
cmdBad raises the outgoing shape error, still transmits cmdGood afterwards
and collects its data payload; the serial error does not abort the run, the
writes of the later command reach the port. -/
theorem c9_abort_counterexample :
    (runCommands cfgEx envMixed [cmdBad, cmdGood]).2 =
      [(cmdBad, Except.error SerialErr.shapeOutgoing),
        (cmdGood, Except.ok (some [['5']]))] ∧
    (serialCommunication cfgEx 2 2 [] ['s', 't'] [['8']] CommType.immediate
        respData).writes.length = 2 ∧
    (runCommands cfgEx envMixed [cmdBad, cmdGood]).1 =
      [(['s', 't'], [['5']])] := by
  decide

/-- C9, amended: a serial error raised by one command of a run only aborts
that command: it is caught inside the loop, contributes no data entry, and
every queued command of the run is still executed in order with its own
serial outcome; in particular a run whose commands all fail returns an empty
data dictionary but still processes the whole queue. -/
theorem c9_error_isolation_amended (cfg : SerialConf)
    (env : SCommand → CmdEnv) (queue : List SCommand) :
    (runCommands cfg env queue).2 =
      queue.map (fun c => (c, cmdResult cfg env c)) ∧
    ((∀ c ∈ queue, exceptIsError (cmdResult cfg env c) = true) →
      (runCommands cfg env queue).1 = []) := by
  constructor
  · have h := runCommandsAux_log cfg env queue [] []
    simpa [runCommands] using h
  · intro hall
    exact runCommandsAux_data_err cfg env queue [] [] hall

/-- C9, witness: the amended statement at a concrete queue whose only
command fails its shape check. -/
theorem c9_error_isolation_amended_witness :
    (runCommands cfgEx envTrivial [cmdA]).1 = [] :=
  (c9_error_isolation_amended cfgEx envTrivial [cmdA]).2 (by decide)

/-- C10: check_status returns a result record on every input, and the
record accepts new jobs only when nothing failed: any raised status request
forces accept_new_jobs to be false, and whenever the record accepts, the
gather succeeded and every listed instance had a readable status whose job
completion fields parsed without error. -/
theorem c10_check_status_robust (fetches : List (Except String RawStatus))
    (paths : List String) (ids : List Nat) :
    ((∃ f ∈ fetches, exceptIsError f = true) →
      (checkStatus fetches paths ids).acceptNewJobs = false) ∧
    (∀ sts, collectOk fetches = some sts →
      (checkStatus fetches paths ids).acceptNewJobs = true →
      ∀ idx ∈ ids, ∃ st, sts.get? idx = some st ∧
        (paths ≠ [] → ∃ p, paths.get? idx = some p ∧
          jobDoneCheck st (basename p) ≠ none)) ∧
    ((checkStatus fetches paths ids).acceptNewJobs = true →
      collectOk fetches ≠ none) := by
  refine ⟨?_, ?_, ?_⟩
  · intro hex
    simp [checkStatus, collectOk_eq_none fetches hex]
  · intro sts hsts h
    rw [checkStatus, hsts] at h
    exact checkLoop_accept sts paths ids [] 0 h
  · intro h hnone
    rw [checkStatus, hnone] at h
    simp at h

/-- C10, witness: a failing status request forces a refusing result. -/
theorem c10_check_status_robust_witness :
    (checkStatus [Except.error "boom"] ["p"] [0]).acceptNewJobs = false :=
  (c10_check_status_robust [Except.error "boom"] ["p"] [0]).1
    ⟨Except.error "boom", List.mem_singleton.mpr rfl, rfl⟩
